import Mathlib

/-!
Shallow embedding of the ocr-publishing repository's data-access layer
(src/lib/project-service.ts), its translate route handler
(src/app/api/projects/route.ts, translate POST handler) and the Arabic
text-type heuristic (src/utils/text-analysis.ts).

Modelling conventions:
* The relational database (three tables from ProjectService.createTables) and
  the two in-process caches are explicit state (`ServiceState`), threaded
  through each operation.
* Timestamps (`Date.now()`, `new Date().toISOString()`) and the random id
  suffix (`Math.random().toString(36).substr(2, 9)`) are parameters.
* JavaScript objects used as string maps (`translations`, the caches) are
  association lists with unique keys; `jsMapSet` mirrors JS property
  assignment (overwrite in place, else append) and `jsMapGet` property read.
* Fallible operations return `Option`: `none` models a thrown error
  (a rejected promise). Storage reads never fail in the model; the SQL
  semantics modelled are: primary-key violation on INSERT is an error,
  `ON CONFLICT ... DO NOTHING` skips a duplicate join row, FOREIGN KEY
  constraints (declared in createTables) reject an INSERT whose referenced
  row is missing, and `ON DELETE CASCADE` removes join rows when a parent
  row is deleted. `UPDATE`/`DELETE` touching zero rows is not an error.
* The external blob store is not modelled; the outcome of the one blob
  upload (in createPageGroup) is a parameter, and blob deletion has no
  observable effect on the modelled state.
-/

/-- JS string-map read: `obj[k]`, `undefined` as `none`. -/
def jsMapGet {α : Type} : List (String × α) → String → Option α
  | [], _ => none
  | (k', v) :: rest, k => if k' == k then some v else jsMapGet rest k

/-- JS string-map write: `obj[k] = v` — overwrite the (unique) existing key in
place, otherwise append the new key at the end (JS property insertion order). -/
def jsMapSet {α : Type} : List (String × α) → String → α → List (String × α)
  | [], k, v => [(k, v)]
  | (k', v') :: rest, k, v =>
    if k' == k then (k, v) :: rest else (k', v') :: jsMapSet rest k v

/-- JS `delete obj[k]` / `Map.delete(k)`. -/
def jsMapDel {α : Type} (l : List (String × α)) (k : String) : List (String × α) :=
  l.filter (fun p => p.1 != k)

/-- `p` occurs at the start of `s`. -/
def charsLeading : List Char → List Char → Bool
  | [], _ => true
  | _ :: _, [] => false
  | a :: as, b :: bs => a == b && charsLeading as bs

/-- `sub` occurs somewhere in `s`. -/
def charsHaveSub (sub : List Char) : List Char → Bool
  | [] => charsLeading sub []
  | c :: cs => charsLeading sub (c :: cs) || charsHaveSub sub cs

/-- JS `text.includes(sub)`. -/
def jsIncludes (text sub : String) : Bool :=
  charsHaveSub sub.data text.data

/-- JS `s.includes(c)` for a single-character needle. -/
def jsIncludesChar (s : String) (c : Char) : Bool :=
  s.data.contains c

/-- JS `s.split(sep)` for a one-character separator, on char lists. -/
def splitOnChar (c : Char) : List Char → List (List Char)
  | [] => [[]]
  | d :: ds =>
    let r := splitOnChar c ds
    if d == c then [] :: r
    else
      match r with
      | [] => [[d]]
      | x :: xs => (d :: x) :: xs

/-- JS `s.trim()`. -/
def jsTrimChars (l : List Char) : List Char :=
  ((l.dropWhile Char.isWhitespace).reverse.dropWhile Char.isWhitespace).reverse

/-- Characters kept by the slug regex class `[a-z0-9]`. -/
def isSlugChar (c : Char) : Bool :=
  ('a' ≤ c && c ≤ 'z') || ('0' ≤ c && c ≤ '9')

/-- `replace(/[^a-z0-9]+/g, "-")`: each maximal run of non-kept characters
becomes one dash. The flag records whether we are inside such a run. -/
def slugReplaceAux : Bool → List Char → List Char
  | _, [] => []
  | inRun, c :: cs =>
    if isSlugChar c then c :: slugReplaceAux false cs
    else if inRun then slugReplaceAux true cs
    else '-' :: slugReplaceAux true cs

/-- The `slug` helper of project-service.ts: lowercase, trim, collapse
non-alphanumeric runs to dashes, strip leading/trailing dashes. -/
def slug (s : String) : String :=
  let replaced := slugReplaceAux false (jsTrimChars (s.data.map Char.toLower))
  ⟨(((replaced.dropWhile (· == '-')).reverse).dropWhile (· == '-')).reverse⟩

/-- JS `a || b` on strings (empty string is falsy). -/
def jsOrDefault (o : Option String) (d : String) : String :=
  match o with
  | some s => if s == "" then d else s
  | none => d

-- ## Data model (src/types/project.ts and the SQL schema of createTables)

/-- One row of the `projects` table. -/
structure ProjectRow where
  id : String
  title : String
  description : String
  fileName : String
  rootLanguage : String
  translationLanguages : List String
  createdAt : String
  updatedAt : String
  status : String
deriving DecidableEq

/-- The `Project` entity returned to callers: a row plus the aggregated
`pageGroups` id list read from the join table. -/
structure Project where
  id : String
  title : String
  description : String
  fileName : String
  rootLanguage : String
  translationLanguages : List String
  pageGroups : List String
  createdAt : String
  updatedAt : String
  status : String
deriving DecidableEq

/-- A `PageGroup`: entity and table row coincide. `translations` is the JSONB
object, as an insertion-ordered association list with unique keys. -/
structure PageGroup where
  id : String
  title : String
  fileName : String
  rootLanguage : String
  rootText : String
  translations : List (String × String)
  imageUrl : Option String
  imageBlobId : Option String
  status : String
  createdAt : String
  updatedAt : String
deriving DecidableEq

/-- The legacy `Page` shape produced by createPage / loadPageFromBlob. -/
structure Page where
  id : String
  fileName : String
  title : Option String
  originalText : String
  editedText : String
  language : String
  status : String
  rootPageId : Option String
  imageUrl : Option String
  createdAt : String
  updatedAt : String
deriving DecidableEq

/-- The three tables created by ProjectService.createTables. -/
structure DB where
  projects : List ProjectRow
  pageGroups : List PageGroup
  projectPageGroups : List (String × String)
deriving DecidableEq

/-- Database plus the two in-process caches (projectCache, pageGroupCache). -/
structure ServiceState where
  db : DB
  projectCache : List (String × Project)
  pageGroupCache : List (String × PageGroup)
deriving DecidableEq

/-- Fresh state: empty tables, empty caches. -/
def serviceState0 : ServiceState := ⟨⟨[], [], []⟩, [], []⟩

/-- `SELECT * FROM projects WHERE id = ...` (at most one row: id is the PK). -/
def findProjectRow (db : DB) (id : String) : Option ProjectRow :=
  db.projects.find? (fun r => r.id == id)

/-- `SELECT * FROM page_groups WHERE id = ...`. -/
def findPageGroupRow (db : DB) (id : String) : Option PageGroup :=
  db.pageGroups.find? (fun r => r.id == id)

/-- Whether the join table holds a row for the pair. -/
def joinExists (db : DB) (pid gid : String) : Bool :=
  db.projectPageGroups.any (fun j => j.1 == pid && j.2 == gid)

/-- Number of join rows for the pair (the PK makes this 0 or 1 in reachable
states). -/
def joinCount (db : DB) (pid gid : String) : Nat :=
  (db.projectPageGroups.filter (fun j => j.1 == pid && j.2 == gid)).length

/-- The aggregated page-group id list of a project, as read by the
`array_agg(ppg.page_group_id)` join of getProject. -/
def pageGroupIdsOf (db : DB) (pid : String) : List String :=
  (db.projectPageGroups.filter (fun j => j.1 == pid)).map (fun j => j.2)

/-- Build the `Project` entity from its row plus the join table. -/
def projectOfRow (db : DB) (r : ProjectRow) : Project :=
  { id := r.id, title := r.title, description := r.description,
    fileName := r.fileName, rootLanguage := r.rootLanguage,
    translationLanguages := r.translationLanguages,
    pageGroups := pageGroupIdsOf db r.id,
    createdAt := r.createdAt, updatedAt := r.updatedAt, status := r.status }

-- ## ProjectService operations

/-- Input to createProject. `fileName` and `description` may be absent at
runtime (the projects POST route builds the object without a fileName). -/
structure CreateProjectData where
  title : String
  description : Option String
  fileName : Option String
  rootLanguage : String
  translationLanguages : List String
deriving DecidableEq

/-- ProjectService.createProject. `nowMs` is `Date.now()`, `nowIso` the ISO
timestamp, `rand` the random id suffix. `none` models the rethrown insert
error (only a PK collision in the model). -/
def createProject (st : ServiceState) (data : CreateProjectData)
    (nowMs : Nat) (nowIso rand : String) : Option (Project × ServiceState) :=
  let fileName :=
    match data.fileName with
    | some f =>
      if 0 < (jsTrimChars f.data).length then slug f
      else slug data.title ++ "-" ++ toString nowMs
    | none => slug data.title ++ "-" ++ toString nowMs
  let id := "project_" ++ toString nowMs ++ "_" ++ rand
  let project : Project :=
    { id := id, title := data.title, description := data.description.getD "",
      fileName := fileName, rootLanguage := data.rootLanguage,
      translationLanguages := data.translationLanguages, pageGroups := [],
      createdAt := nowIso, updatedAt := nowIso, status := "active" }
  if st.db.projects.any (fun r => r.id == id) then none
  else
    let row : ProjectRow :=
      { id := id, title := project.title, description := project.description,
        fileName := fileName, rootLanguage := data.rootLanguage,
        translationLanguages := data.translationLanguages,
        createdAt := nowIso, updatedAt := nowIso, status := "active" }
    some (project,
      { st with
        db := { st.db with projects := st.db.projects ++ [row] },
        projectCache := jsMapSet st.projectCache id project })

/-- ProjectService.getProject: cache hit returns immediately; cache miss reads
the row joined with the link table and caches the result. -/
def getProject (st : ServiceState) (id : String) : Option Project × ServiceState :=
  match jsMapGet st.projectCache id with
  | some p => (some p, st)
  | none =>
    match findProjectRow st.db id with
    | none => (none, st)
    | some r =>
      let p := projectOfRow st.db r
      (some p, { st with projectCache := jsMapSet st.projectCache id p })

/-- Patch accepted by updateProject (UpdateProjectData). -/
structure UpdateProjectData where
  title : Option String
  description : Option String
  status : Option String
deriving DecidableEq

/-- The empty patch `{}`. -/
def emptyProjectPatch : UpdateProjectData := ⟨none, none, none⟩

/-- The COALESCE row update performed by updateProject's SQL statement. -/
def applyProjectPatch (d : UpdateProjectData) (nowIso : String) (r : ProjectRow) : ProjectRow :=
  { r with
    title := d.title.getD r.title,
    description := d.description.getD r.description,
    status := d.status.getD r.status,
    updatedAt := nowIso }

/-- ProjectService.updateProject: COALESCE-update the row, drop the cache
entry, reload via getProject. -/
def updateProject (st : ServiceState) (id : String) (d : UpdateProjectData)
    (nowIso : String) : Option Project × ServiceState :=
  let projects' := st.db.projects.map
    (fun r => if r.id == id then applyProjectPatch d nowIso r else r)
  let st' : ServiceState :=
    { st with
      db := { st.db with projects := projects' },
      projectCache := jsMapDel st.projectCache id }
  getProject st' id

/-- ProjectService.loadPageGroupFromBlob: cache hit, else read the row and
cache it; `none` when the id is unknown. -/
def loadPageGroupFromBlob (st : ServiceState) (id : String) :
    Option PageGroup × ServiceState :=
  match jsMapGet st.pageGroupCache id with
  | some pg => (some pg, st)
  | none =>
    match findPageGroupRow st.db id with
    | none => (none, st)
    | some pg =>
      (some pg, { st with pageGroupCache := jsMapSet st.pageGroupCache id pg })

/-- ProjectService.deletePageGroup: best-effort blob delete (no modelled
effect), delete the row (join rows cascade), drop the cache entry. Returns
true even when no such row existed; false only on a storage error. -/
def deletePageGroup (st : ServiceState) (id : String) : Bool × ServiceState :=
  let r := loadPageGroupFromBlob st id
  let st1 := r.2
  let db' :=
    { st1.db with
      pageGroups := st1.db.pageGroups.filter (fun pg => pg.id != id),
      projectPageGroups := st1.db.projectPageGroups.filter (fun j => j.2 != id) }
  (true, { st1 with db := db', pageGroupCache := jsMapDel st1.pageGroupCache id })

/-- ProjectService.deleteProject: load the project, delete each linked
page group, delete the project row (join rows cascade), drop the cache entry.
The try block always reaches `return true`; false only on a storage error. -/
def deleteProject (st : ServiceState) (id : String) : Bool × ServiceState :=
  let r := getProject st id
  let st2 :=
    match r.1 with
    | some p => p.pageGroups.foldl (fun s gid => (deletePageGroup s gid).2) r.2
    | none => r.2
  let db' :=
    { st2.db with
      projects := st2.db.projects.filter (fun pr => pr.id != id),
      projectPageGroups := st2.db.projectPageGroups.filter (fun j => j.1 != id) }
  (true, { st2 with db := db', projectCache := jsMapDel st2.projectCache id })

/-- Input to createPageGroup: `Omit<PageGroup, "id" | "createdAt" |
"updatedAt"> & { imageFile?: File }`; the image file is kept only as an
uninterpreted name, and `status` is optional at runtime (`data.status || "draft"`). -/
structure CreatePageGroupData where
  title : String
  fileName : String
  rootLanguage : String
  rootText : String
  translations : List (String × String)
  status : Option String
  imageFile : Option String
deriving DecidableEq

/-- ProjectService.createPageGroup. `upload` is the outcome of the external
blob `put` when an image file is supplied: `some (url, blobId)` on success,
`none` on failure — the code then continues without an image. `none` result
models the rethrown insert error (PK collision in the model). -/
def createPageGroup (st : ServiceState) (data : CreatePageGroupData)
    (nowMs : Nat) (nowIso rand : String) (upload : Option (String × String)) :
    Option (PageGroup × ServiceState) :=
  let img : Option String × Option String :=
    match data.imageFile, upload with
    | some _, some u => (some u.1, some u.2)
    | _, _ => (none, none)
  let id := "pagegroup_" ++ toString nowMs ++ "_" ++ rand
  let pg : PageGroup :=
    { id := id, title := data.title, fileName := data.fileName,
      rootLanguage := data.rootLanguage, rootText := data.rootText,
      translations := data.translations, imageUrl := img.1,
      imageBlobId := img.2, status := jsOrDefault data.status "draft",
      createdAt := nowIso, updatedAt := nowIso }
  if st.db.pageGroups.any (fun r => r.id == id) then none
  else
    some (pg,
      { st with
        db := { st.db with pageGroups := st.db.pageGroups ++ [pg] },
        pageGroupCache := jsMapSet st.pageGroupCache id pg })

/-- Legacy "page" input to createPage (`Omit<Page, "id" | "createdAt" |
"updatedAt"> & { imageFile?: File }`); `title` and `status` may be absent at
runtime (the code applies `??` defaults to both). -/
structure CreatePageData where
  fileName : String
  title : Option String
  originalText : String
  editedText : String
  language : String
  status : Option String
  imageFile : Option String
deriving DecidableEq

/-- ProjectService.createPage: compatibility shim — build a PageGroup with
empty translations from the legacy input, then re-project it to the legacy
Page shape (originalText and editedText both equal to rootText). -/
def createPage (st : ServiceState) (data : CreatePageData)
    (nowMs : Nat) (nowIso rand : String) (upload : Option (String × String)) :
    Option (Page × ServiceState) :=
  let pgData : CreatePageGroupData :=
    { title := data.title.getD data.fileName, fileName := data.fileName,
      rootLanguage := data.language, rootText := data.editedText,
      translations := [], status := some (data.status.getD "approved"),
      imageFile := data.imageFile }
  match createPageGroup st pgData nowMs nowIso rand upload with
  | none => none
  | some (pg, st') =>
    some ({ id := pg.id, fileName := pg.fileName, title := some pg.title,
            originalText := pg.rootText, editedText := pg.rootText,
            language := pg.rootLanguage, status := pg.status,
            rootPageId := none, imageUrl := pg.imageUrl,
            createdAt := pg.createdAt, updatedAt := pg.updatedAt }, st')

/-- Patch accepted by updatePageGroup (`Partial<PageGroup>`, of which only
title, rootText, translations and status reach the SQL statement). -/
structure UpdatePageGroupData where
  title : Option String
  rootText : Option String
  translations : Option (List (String × String))
  status : Option String
deriving DecidableEq

/-- A patch that only replaces the translations object. -/
def translationsPatch (tr : List (String × String)) : UpdatePageGroupData :=
  ⟨none, none, some tr, none⟩

/-- The COALESCE row update performed by updatePageGroup's SQL statement
(`translations` is a whole-object replace whenever provided). -/
def applyPageGroupPatch (d : UpdatePageGroupData) (nowIso : String)
    (r : PageGroup) : PageGroup :=
  { r with
    title := d.title.getD r.title,
    rootText := d.rootText.getD r.rootText,
    translations := d.translations.getD r.translations,
    status := d.status.getD r.status,
    updatedAt := nowIso }

/-- ProjectService.updatePageGroup: COALESCE-update the row, drop the cache
entry, reload via loadPageGroupFromBlob (`none` when the id is unknown). -/
def updatePageGroup (st : ServiceState) (id : String) (d : UpdatePageGroupData)
    (nowIso : String) : Option PageGroup × ServiceState :=
  let pgs := st.db.pageGroups.map
    (fun r => if r.id == id then applyPageGroupPatch d nowIso r else r)
  let st' : ServiceState :=
    { st with
      db := { st.db with pageGroups := pgs },
      pageGroupCache := jsMapDel st.pageGroupCache id }
  loadPageGroupFromBlob st' id

/-- The tail of addPageGroupToProject after the join-table insert: touch the
project's updated_at (`UPDATE projects SET updated_at ... WHERE id = pid`,
a no-op when the row is missing) and drop the project's cache entry. -/
def linkTouchProject (st : ServiceState) (pid nowIso : String) : ServiceState :=
  let projs := st.db.projects.map
    (fun r => if r.id == pid then { r with updatedAt := nowIso } else r)
  { st with
    db := { st.db with projects := projs },
    projectCache := jsMapDel st.projectCache pid }

/-- A join-table row appended (the successful, non-conflicting INSERT). -/
def insertJoinRow (st : ServiceState) (pid gid : String) : ServiceState :=
  { st with
    db := { st.db with
            projectPageGroups := st.db.projectPageGroups ++ [(pid, gid)] } }

/-- ProjectService.addPageGroupToProject: `INSERT ... ON CONFLICT DO NOTHING`
into the join table, then touch the project's updated_at and drop its cache
entry. The insert raises a foreign-key violation — caught, returning false
with no state change — when the join row is new and either referenced row is
missing. No application-level validation is performed. -/
def addPageGroupToProject (st : ServiceState) (pid gid nowIso : String) :
    Bool × ServiceState :=
  if joinExists st.db pid gid then
    (true, linkTouchProject st pid nowIso)
  else if (findProjectRow st.db pid).isSome && (findPageGroupRow st.db gid).isSome then
    (true, linkTouchProject (insertJoinRow st pid gid) pid nowIso)
  else (false, st)

/-- ProjectService.addTranslationToPageGroup: load the PageGroup, set
`translations[language] = text`, persist via updatePageGroup; `none` when the
PageGroup does not exist. -/
def addTranslationToPageGroup (st : ServiceState)
    (pageGroupId language translationText nowIso : String) :
    Option PageGroup × ServiceState :=
  let r := loadPageGroupFromBlob st pageGroupId
  match r.1 with
  | none => (none, r.2)
  | some pg =>
    updatePageGroup r.2 pageGroupId
      (translationsPatch (jsMapSet pg.translations language translationText)) nowIso

/-- ProjectService.loadPageFromBlob: ids containing an underscore are treated
as synthetic `pageGroupId_languageCode` translation-page ids (destructuring
the first two fragments of `id.split("_")`); an empty or missing translation
entry yields null. Other ids are read as a PageGroup's root page. -/
def loadPageFromBlob (st : ServiceState) (id : String) :
    Option Page × ServiceState :=
  if jsIncludesChar id '_' then
    let parts := splitOnChar '_' id.data
    let pageGroupId : String := ⟨parts.getD 0 []⟩
    let language : String := ⟨parts.getD 1 []⟩
    let r := loadPageGroupFromBlob st pageGroupId
    match r.1 with
    | none => (none, r.2)
    | some pg =>
      match jsMapGet pg.translations language with
      | none => (none, r.2)
      | some t =>
        if t == "" then (none, r.2)
        else
          (some { id := id, fileName := pg.fileName ++ "_" ++ language,
                  title := some (pg.title ++ " (" ++ language ++ ")"),
                  originalText := t, editedText := t, language := language,
                  status := pg.status, rootPageId := some pg.id,
                  imageUrl := none, createdAt := pg.createdAt,
                  updatedAt := pg.updatedAt }, r.2)
  else
    let r := loadPageGroupFromBlob st id
    match r.1 with
    | none => (none, r.2)
    | some pg =>
      (some { id := pg.id, fileName := pg.fileName, title := some pg.title,
              originalText := pg.rootText, editedText := pg.rootText,
              language := pg.rootLanguage, status := pg.status,
              rootPageId := none, imageUrl := pg.imageUrl,
              createdAt := pg.createdAt, updatedAt := pg.updatedAt }, r.2)

-- ## Translate route handler (src/app/api/projects/route.ts, POST /translate)

/-- The config object handed to the prompt builders
(TranslationPromptConfig of src/utils/translation-prompts.ts). -/
structure TranslationPromptConfig where
  sourceLanguage : String
  targetLanguage : String
  model : String
  textType : Option String
deriving DecidableEq

/-- The parsed JSON body of POST /translate; absent string fields are modelled
as the empty string (falsy, like `undefined`, for the `!text` checks). -/
structure TranslateRequest where
  text : String
  sourceLanguage : String
  targetLanguage : String
  model : String
  textType : Option String
deriving DecidableEq

/-- The JSON body of a successful /translate response. -/
structure TranslateResponse where
  translatedText : String
  usedClassicalPrompt : Bool
  textType : Option String
  model : String
deriving DecidableEq

/-- The classical-prompt condition of the handler, used both to pick the
prompt builder and to fill `usedClassicalPrompt`: source is Arabic and the
model name contains "classical" or the text type is classical, religious or
literary. -/
def classicalPromptCondition (sourceLanguage model : String)
    (textType : Option String) : Bool :=
  sourceLanguage == "ara" &&
    (jsIncludes model "classical" || textType == some "classical" ||
      textType == some "religious" || textType == some "literary")

/-- The prompt the handler builds and forwards to the model. The two prompt
builders (createClassicalArabicPrompt, createModernArabicPrompt) are static
string templates with no control logic beyond language-name lookup; they are
passed as parameters. -/
def translateSelectedPrompt
    (classicalPromptOf modernPromptOf : TranslationPromptConfig → String → String)
    (req : TranslateRequest) : String :=
  let config : TranslationPromptConfig :=
    { sourceLanguage := req.sourceLanguage, targetLanguage := req.targetLanguage,
      model := req.model, textType := req.textType }
  if classicalPromptCondition req.sourceLanguage req.model req.textType then
    classicalPromptOf config req.text
  else
    modernPromptOf config req.text

/-- The POST /translate handler: validate required fields, build the prompt,
call the model (`llm` stands for the external generateText call) and return
the response body; `Except.error` is the 400 path. -/
def translateHandler
    (classicalPromptOf modernPromptOf : TranslationPromptConfig → String → String)
    (llm : String → String) (req : TranslateRequest) :
    Except String TranslateResponse :=
  if req.text == "" || req.targetLanguage == "" || req.model == "" then
    Except.error "Missing required parameters"
  else
    let prompt := translateSelectedPrompt classicalPromptOf modernPromptOf req
    Except.ok
      { translatedText := llm prompt,
        usedClassicalPrompt :=
          classicalPromptCondition req.sourceLanguage req.model req.textType,
        textType := req.textType, model := req.model }

-- ## Arabic text-type heuristic (src/utils/text-analysis.ts)

/-- The ArabicTextType union. -/
inductive JsArabicTextType
  | classical
  | modern
  | religious
  | literary
  | technical
deriving DecidableEq

/-- The pattern list, keyword list and weight of one category. -/
structure CategoryIndicators where
  patterns : List String
  keywords : List String
  weight : ℚ
deriving DecidableEq

/-- The classical indicators (patterns kept as their regex source text). -/
def classicalIndicators : CategoryIndicators :=
  { patterns :=
      ["[أإآ]ن\\s+[يتن]", "لعل|عسى|كأن", "\\bقال\\b|\\bقالت\\b",
       "[وف]?ليس", "إذ\\s+|إذا\\s+"],
    keywords := ["قال", "حدثنا", "أخبرنا", "روى", "ذكر", "بلغني", "زعم"],
    weight := 1.0 }

/-- The religious indicators. -/
def religiousIndicators : CategoryIndicators :=
  { patterns :=
      ["الله|اللهم|رب|إله", "صلى الله عليه وسلم|عليه السلام",
       "قال تعالى|سبحانه وتعالى", "الحمد لله|بسم الله"],
    keywords :=
      ["القرآن", "الحديث", "النبي", "الرسول", "الإسلام", "المسلمين",
       "الدين", "الإيمان"],
    weight := 1.2 }

/-- The literary indicators. -/
def literaryIndicators : CategoryIndicators :=
  { patterns := ["يا\\s+[أيها]", "كأن|مثل|شبه", "[وف]?لا\\s+[يتن]"],
    keywords := ["شعر", "قصيدة", "بيت", "ديوان", "أدب", "نثر", "حكاية", "قصة"],
    weight := 1.1 }

/-- The technical indicators. -/
def technicalIndicators : CategoryIndicators :=
  { patterns := ["\\d+[.]\\d+|\\d+%", "[أي]ن\\s+[كان]", "بحيث|حيث\\s+أن"],
    keywords := ["دراسة", "بحث", "تحليل", "نتائج", "منهج", "نظرية",
                 "تطبيق", "تقنية"],
    weight := 0.9 }

/-- The modern indicators. -/
def modernIndicators : CategoryIndicators :=
  { patterns :=
      ["\\b(هذا|هذه|ذلك|تلك)\\s+(ال)?[أ-ي]+", "من\\s+أجل|بهدف|لغرض"],
    keywords := ["حديث", "معاصر", "اليوم", "الآن", "حاليا", "مؤخرا", "جديد"],
    weight := 0.8 }

/-- All pattern sources of the five categories. -/
def allAnalysisPatterns : List String :=
  classicalIndicators.patterns ++ religiousIndicators.patterns ++
    literaryIndicators.patterns ++ technicalIndicators.patterns ++
    modernIndicators.patterns

/-- All keywords of the five categories. -/
def allAnalysisKeywords : List String :=
  classicalIndicators.keywords ++ religiousIndicators.keywords ++
    literaryIndicators.keywords ++ technicalIndicators.keywords ++
    modernIndicators.keywords

/-- Contribution of the pattern list: each pattern adds
`matches.length * weight`, where `mc` gives the number of global regex
matches of a pattern source in the text (a no-match, JS null, is count 0
and adds nothing). -/
def patternsScore (mc : String → String → ℕ) (text : String) (weight : ℚ) :
    List String → ℚ
  | [] => 0
  | p :: ps => (mc p text : ℚ) * weight + patternsScore mc text weight ps

/-- Contribution of the keyword list: `text.includes(keyword)` adds the
weight. -/
def keywordsScore (text : String) (weight : ℚ) : List String → ℚ
  | [] => 0
  | kw :: ks =>
    (if jsIncludes text kw then weight else 0) + keywordsScore text weight ks

/-- Total score of one category. -/
def categoryScore (mc : String → String → ℕ) (text : String)
    (ci : CategoryIndicators) : ℚ :=
  patternsScore mc text ci.weight ci.patterns +
    keywordsScore text ci.weight ci.keywords

/-- The `scores` record, in its JS insertion order
classical, religious, literary, technical, modern. -/
structure AnalysisScores where
  classical : ℚ
  religious : ℚ
  literary : ℚ
  technical : ℚ
  modern : ℚ
deriving DecidableEq

/-- The scores accumulated by the analysis loop. -/
def computeScores (mc : String → String → ℕ) (text : String) : AnalysisScores :=
  { classical := categoryScore mc text classicalIndicators,
    religious := categoryScore mc text religiousIndicators,
    literary := categoryScore mc text literaryIndicators,
    technical := categoryScore mc text technicalIndicators,
    modern := categoryScore mc text modernIndicators }

/-- `Math.max(...Object.values(scores))`. -/
def maxAnalysisScore (s : AnalysisScores) : ℚ :=
  max (max (max (max s.classical s.religious) s.literary) s.technical) s.modern

/-- `Object.entries(scores).find(([_, score]) => score === maxScore)`:
the first category, in insertion order, whose score equals the maximum
(the `|| "modern"` fallback coincides with the last branch). -/
def detectedType (s : AnalysisScores) : JsArabicTextType :=
  let m := maxAnalysisScore s
  if s.classical = m then JsArabicTextType.classical
  else if s.religious = m then JsArabicTextType.religious
  else if s.literary = m then JsArabicTextType.literary
  else if s.technical = m then JsArabicTextType.technical
  else JsArabicTextType.modern

/-- The second-largest value (with multiplicity) of the five scores:
`Object.values(scores).sort((a, b) => b - a)[1]`, computed as the maximum
after erasing one occurrence of the maximum. -/
def secondAnalysisScore (s : AnalysisScores) : ℚ :=
  let values := [s.classical, s.religious, s.literary, s.technical, s.modern]
  ((values.erase (maxAnalysisScore s)).foldl max 0)

/-- The result record of analyzeArabicText (the `indicators` diagnostic list
is omitted from the model; no claim mentions it). -/
structure TextAnalysisResult where
  textType : JsArabicTextType
  confidence : ℚ
deriving DecidableEq

/-- analyzeArabicText of src/utils/text-analysis.ts: score the five
categories, pick the first category attaining the maximum score, and derive
the confidence from the gap between the top two scores (0.5 when every score
is zero). -/
def analyzeArabicText (mc : String → String → ℕ) (text : String) :
    TextAnalysisResult :=
  let scores := computeScores mc text
  let maxScore := maxAnalysisScore scores
  let confidence : ℚ :=
    if 0 < maxScore then
      min ((maxScore - secondAnalysisScore scores) / maxScore) 1
    else 0.5
  { textType := detectedType scores, confidence := confidence }

-- ## Helper lemmas

theorem jsMapGet_set_self {α : Type} (l : List (String × α)) (k : String) (v : α) :
    jsMapGet (jsMapSet l k v) k = some v := by
  induction l with
  | nil => simp [jsMapSet, jsMapGet]
  | cons p rest ih =>
    obtain ⟨k', v'⟩ := p
    by_cases h : k' = k
    · simp [jsMapSet, jsMapGet, h]
    · simp [jsMapSet, jsMapGet, h, ih]

theorem jsMapGet_set_other {α : Type} (l : List (String × α)) (k k' : String)
    (v : α) (h : k' ≠ k) : jsMapGet (jsMapSet l k v) k' = jsMapGet l k' := by
  have hkk : k ≠ k' := Ne.symm h
  induction l with
  | nil => simp [jsMapSet, jsMapGet, hkk]
  | cons p rest ih =>
    obtain ⟨k0, v0⟩ := p
    by_cases h0 : k0 = k
    · subst h0
      simp [jsMapSet, jsMapGet, hkk]
    · simp [jsMapSet, jsMapGet, h0, ih]

theorem jsMapGet_del_self {α : Type} (l : List (String × α)) (k : String) :
    jsMapGet (jsMapDel l k) k = none := by
  induction l with
  | nil => simp [jsMapDel, jsMapGet]
  | cons p rest ih =>
    obtain ⟨k0, v0⟩ := p
    by_cases h0 : k0 = k
    · simpa [jsMapDel, jsMapGet, h0] using ih
    · simpa [jsMapDel, jsMapGet, h0] using ih

/-- `find?` over a list mapped by a key-preserving conditional patch. -/
theorem find?_map_keyed {α : Type} (key : α → String) (patch : α → α)
    (hkey : ∀ a, key (patch a) = key a) (id : String) (l : List α) :
    (l.map (fun a => if key a == id then patch a else a)).find?
        (fun a => key a == id)
      = (l.find? (fun a => key a == id)).map patch := by
  induction l with
  | nil => rfl
  | cons a as ih =>
    cases ha : (key a == id) with
    | true =>
      have hpa : (key (patch a) == id) = true := by rw [hkey]; exact ha
      simp [List.find?, ha, hpa]
    | false =>
      have ha' : ¬ ((key a == id) = true) := by simp [ha]
      have hhead : (if key a == id then patch a else a) = a := by simp [ha]
      simp only [List.map_cons, hhead]
      rw [List.find?_cons_of_neg (p := fun x => key x == id) _ ha',
        List.find?_cons_of_neg (p := fun x => key x == id) _ ha']
      exact ih

theorem getProject_db (st : ServiceState) (id : String) :
    (getProject st id).2.db = st.db := by
  unfold getProject
  cases jsMapGet st.projectCache id
  · cases findProjectRow st.db id <;> rfl
  · rfl

theorem loadPageGroupFromBlob_db (st : ServiceState) (id : String) :
    (loadPageGroupFromBlob st id).2.db = st.db := by
  unfold loadPageGroupFromBlob
  cases jsMapGet st.pageGroupCache id
  · cases findPageGroupRow st.db id <;> rfl
  · rfl

/-- The page-group cache is coherent at `id`: what the cache holds for that
key, if anything, is the stored row. Every write invalidates (deletes) its
cache key and every read caches the freshly loaded row, so this holds in
reachable states. -/
def pgCoherentAt (st : ServiceState) (id : String) : Prop :=
  ∀ pg, jsMapGet st.pageGroupCache id = some pg →
    findPageGroupRow st.db id = some pg

theorem loadPageGroupFromBlob_fst (st : ServiceState) (id : String)
    (hco : pgCoherentAt st id) :
    (loadPageGroupFromBlob st id).1 = findPageGroupRow st.db id := by
  unfold loadPageGroupFromBlob
  cases h : jsMapGet st.pageGroupCache id
  · cases h2 : findPageGroupRow st.db id <;> simp [h2]
  · next pg => exact (hco pg h).symm

theorem updateProject_row (st : ServiceState) (id : String)
    (d : UpdateProjectData) (nowIso : String) :
    findProjectRow (updateProject st id d nowIso).2.db id
      = (findProjectRow st.db id).map (applyProjectPatch d nowIso) := by
  have hf := find?_map_keyed (fun r : ProjectRow => r.id)
    (applyProjectPatch d nowIso) (fun r => rfl) id st.db.projects
  simp only [updateProject]
  rw [getProject_db]
  exact hf

theorem updatePageGroup_row (st : ServiceState) (id : String)
    (d : UpdatePageGroupData) (nowIso : String) :
    findPageGroupRow (updatePageGroup st id d nowIso).2.db id
      = (findPageGroupRow st.db id).map (applyPageGroupPatch d nowIso) := by
  have hf := find?_map_keyed (fun r : PageGroup => r.id)
    (applyPageGroupPatch d nowIso) (fun r => rfl) id st.db.pageGroups
  simp only [updatePageGroup]
  rw [loadPageGroupFromBlob_db]
  exact hf

theorem updatePageGroup_fst (st : ServiceState) (id : String)
    (d : UpdatePageGroupData) (nowIso : String) :
    (updatePageGroup st id d nowIso).1
      = (findPageGroupRow st.db id).map (applyPageGroupPatch d nowIso) := by
  have hdel : jsMapGet (jsMapDel st.pageGroupCache id) id = none :=
    jsMapGet_del_self _ _
  have hf := find?_map_keyed (fun r : PageGroup => r.id)
    (applyPageGroupPatch d nowIso) (fun r => rfl) id st.db.pageGroups
  simp only [updatePageGroup, loadPageGroupFromBlob, findPageGroupRow, hdel]
  rw [hf]
  cases st.db.pageGroups.find? (fun r => r.id == id) <;> rfl

theorem linkTouchProject_joins (st : ServiceState) (pid t : String) :
    (linkTouchProject st pid t).db.projectPageGroups
      = st.db.projectPageGroups := rfl

theorem linkTouchProject_pageGroups (st : ServiceState) (pid t : String) :
    (linkTouchProject st pid t).db.pageGroups = st.db.pageGroups := rfl

theorem linkTouchProject_find_pid (st : ServiceState) (pid t : String) :
    findProjectRow (linkTouchProject st pid t).db pid
      = (findProjectRow st.db pid).map (fun r => { r with updatedAt := t }) :=
  find?_map_keyed (fun r : ProjectRow => r.id)
    (fun r => { r with updatedAt := t }) (fun _ => rfl) pid st.db.projects

theorem insertJoinRow_joins (st : ServiceState) (pid gid : String) :
    (insertJoinRow st pid gid).db.projectPageGroups
      = st.db.projectPageGroups ++ [(pid, gid)] := rfl

theorem joinCount_zero_of_not_exists {db : DB} {pid gid : String}
    (h : joinExists db pid gid = false) : joinCount db pid gid = 0 := by
  have hall := List.any_eq_false.mp h
  unfold joinCount
  rw [List.filter_eq_nil_iff.mpr hall]
  rfl

theorem joinCount_pos_of_exists {db : DB} {pid gid : String}
    (h : joinExists db pid gid = true) : 0 < joinCount db pid gid := by
  obtain ⟨x, hx, hp⟩ := List.any_eq_true.mp h
  have hm : x ∈ db.projectPageGroups.filter (fun j => j.1 == pid && j.2 == gid) :=
    List.mem_filter.mpr ⟨hx, hp⟩
  exact List.length_pos.mpr (List.ne_nil_of_mem hm)

theorem joinCount_append_pair (db : DB) (l : List (String × String))
    (pid gid : String) (h : db.projectPageGroups = l ++ [(pid, gid)]) :
    joinCount db pid gid
      = (l.filter (fun j => j.1 == pid && j.2 == gid)).length + 1 := by
  unfold joinCount
  rw [h, List.filter_append]
  simp

theorem joinExists_of_append (db : DB) (l : List (String × String))
    (pid gid : String) (h : db.projectPageGroups = l ++ [(pid, gid)]) :
    joinExists db pid gid = true := by
  unfold joinExists
  rw [h]
  simp

theorem joinCount_linkTouch (st : ServiceState) (pid t a b : String) :
    joinCount (linkTouchProject st pid t).db a b = joinCount st.db a b := by
  unfold joinCount
  rw [linkTouchProject_joins]

theorem joinExists_linkTouch (st : ServiceState) (pid t a b : String) :
    joinExists (linkTouchProject st pid t).db a b = joinExists st.db a b := by
  unfold joinExists
  rw [linkTouchProject_joins]

theorem addPGP_snd_of_exists (st : ServiceState) (pid gid t : String)
    (hje : joinExists st.db pid gid = true) :
    (addPageGroupToProject st pid gid t).2 = linkTouchProject st pid t := by
  simp [addPageGroupToProject, hje]

theorem addPGP_snd_of_insert (st : ServiceState) (pid gid t : String)
    (hje : joinExists st.db pid gid = false)
    (hp : (findProjectRow st.db pid).isSome = true)
    (hg : (findPageGroupRow st.db gid).isSome = true) :
    (addPageGroupToProject st pid gid t).2
      = linkTouchProject (insertJoinRow st pid gid) pid t := by
  simp [addPageGroupToProject, hje, hp, hg]

-- ## Concrete sample data used by witnesses and counterexamples

/-- A stored project row. -/
def sampleProjectRow : ProjectRow :=
  { id := "p1", title := "Test", description := "", fileName := "test",
    rootLanguage := "eng", translationLanguages := ["ara"],
    createdAt := "T0", updatedAt := "T0", status := "active" }

/-- A stored page group with one Spanish translation. -/
def samplePageGroupRow : PageGroup :=
  { id := "g1", title := "Doc", fileName := "doc", rootLanguage := "eng",
    rootText := "Hello", translations := [("spa", "Hola")],
    imageUrl := none, imageBlobId := none, status := "draft",
    createdAt := "T0", updatedAt := "T0" }

/-- A state holding the sample project and page group, not yet linked. -/
def linkReadyState : ServiceState :=
  ⟨⟨[sampleProjectRow], [samplePageGroupRow], []⟩, [], []⟩

-- ## Claim C3

/-- Claim C3 counterexample: with empty storage, no project "missing-project"
exists, yet deleteProject returns true — the claim says it returns false when
the project does not exist. -/
theorem claim_C3_counterexample :
    findProjectRow serviceState0.db "missing-project" = none ∧
    (deleteProject serviceState0 "missing-project").1 = true := by
  exact ⟨rfl, rfl⟩

/-- Claim C3 (amended): deleteProject returns true whether or not a project
with the given id exists; its try block always ends in `return true`, and
false is produced only by the catch branch on a storage error, which the
model excludes. -/
theorem claim_C3_amended_deleteProject_true (st : ServiceState) (id : String) :
    (deleteProject st id).1 = true := rfl

-- ## Claim C4

/-- Claim C4 counterexample: with a stored project "p1" but no page group
"g1", addPageGroupToProject returns false (the join-table insert violates the
page_group_id foreign key), not true as the claim states. -/
theorem claim_C4_counterexample :
    findPageGroupRow (⟨⟨[sampleProjectRow], [], []⟩, [], []⟩ : ServiceState).db
        "g1" = none ∧
    (addPageGroupToProject (⟨⟨[sampleProjectRow], [], []⟩, [], []⟩ : ServiceState)
        "p1" "g1" "T1").1 = false := by
  decide

/-- Claim C4 (amended): addPageGroupToProject performs no application-level
existence validation, but the join table's foreign keys reject a new join row
whose project or page group is missing, so the call returns false and leaves
the state unchanged in that case; when both rows exist it returns true, and a
call inserts at most one join row for the pair. -/
theorem claim_C4_amended (st : ServiceState) (pid gid nowIso : String) :
    ((findProjectRow st.db pid = none ∨ findPageGroupRow st.db gid = none) →
      joinExists st.db pid gid = false →
      addPageGroupToProject st pid gid nowIso = (false, st)) ∧
    ((findProjectRow st.db pid).isSome = true →
      (findPageGroupRow st.db gid).isSome = true →
      (addPageGroupToProject st pid gid nowIso).1 = true) ∧
    joinCount (addPageGroupToProject st pid gid nowIso).2.db pid gid
      ≤ joinCount st.db pid gid + 1 := by
  refine ⟨?_, ?_, ?_⟩
  · intro hmiss hje
    rcases hmiss with h | h <;> simp [addPageGroupToProject, hje, h]
  · intro hp hg
    cases je : joinExists st.db pid gid <;>
      simp [addPageGroupToProject, je, hp, hg]
  · cases je : joinExists st.db pid gid
    · cases hc : ((findProjectRow st.db pid).isSome
        && (findPageGroupRow st.db gid).isSome)
      · simp [addPageGroupToProject, je, hc]
      · have h2 : (addPageGroupToProject st pid gid nowIso).2
            = linkTouchProject (insertJoinRow st pid gid) pid nowIso := by
          simp [addPageGroupToProject, je, hc]
        rw [h2, joinCount_linkTouch]
        rw [joinCount_append_pair _ st.db.projectPageGroups pid gid
          (insertJoinRow_joins st pid gid)]
        exact Nat.le_refl _
    · rw [addPGP_snd_of_exists st pid gid nowIso je, joinCount_linkTouch]
      exact Nat.le_succ_of_le (Nat.le_refl _)

/-- Witness for claim C4's theorem: with empty storage the link call fails and
changes nothing; with both sample rows stored it returns true. -/
theorem claim_C4_amended_witness :
    addPageGroupToProject serviceState0 "p1" "g1" "T1" = (false, serviceState0) ∧
    (addPageGroupToProject linkReadyState "p1" "g1" "T1").1 = true :=
  ⟨(claim_C4_amended serviceState0 "p1" "g1" "T1").1 (Or.inl (by decide)) (by decide),
   (claim_C4_amended linkReadyState "p1" "g1" "T1").2.1 (by decide) (by decide)⟩

-- ## Claim C5

/-- Claim C5 counterexample: with empty storage (pair of ids that do not
exist), calling addPageGroupToProject twice leaves zero join rows for the
pair — not exactly one as the claim states for every pair. -/
theorem claim_C5_counterexample :
    joinCount (addPageGroupToProject
        (addPageGroupToProject serviceState0 "p1" "g1" "T1").2
        "p1" "g1" "T2").2.db "p1" "g1" = 0 ∧
    joinCount (addPageGroupToProject
        (addPageGroupToProject serviceState0 "p1" "g1" "T1").2
        "p1" "g1" "T2").2.db "p1" "g1" ≠ 1 := by
  decide

/-- Claim C5 (amended): for ids of an existing project and an existing page
group (with the join-table primary key holding beforehand), calling
addPageGroupToProject twice with the same ids leaves exactly one join row for
the pair. -/
theorem claim_C5_amended (st : ServiceState) (pid gid t1 t2 : String)
    (hp : (findProjectRow st.db pid).isSome = true)
    (hg : (findPageGroupRow st.db gid).isSome = true)
    (hpk : joinCount st.db pid gid ≤ 1) :
    joinCount (addPageGroupToProject
      (addPageGroupToProject st pid gid t1).2 pid gid t2).2.db pid gid = 1 := by
  cases je : joinExists st.db pid gid
  · -- no join row yet: the first call inserts it, the second conflicts away
    rw [addPGP_snd_of_insert st pid gid t1 je hp hg]
    have hje2 : joinExists
        (linkTouchProject (insertJoinRow st pid gid) pid t1).db pid gid = true := by
      rw [joinExists_linkTouch]
      exact joinExists_of_append _ st.db.projectPageGroups pid gid
        (insertJoinRow_joins st pid gid)
    rw [addPGP_snd_of_exists _ pid gid t2 hje2, joinCount_linkTouch,
      joinCount_linkTouch]
    rw [joinCount_append_pair _ st.db.projectPageGroups pid gid
      (insertJoinRow_joins st pid gid)]
    have h0 : joinCount st.db pid gid = 0 := joinCount_zero_of_not_exists je
    unfold joinCount at h0
    rw [h0]
  · -- the join row already exists: both calls conflict away
    have h1 : joinCount st.db pid gid = 1 :=
      Nat.le_antisymm hpk (joinCount_pos_of_exists je)
    rw [addPGP_snd_of_exists st pid gid t1 je]
    have hje2 : joinExists (linkTouchProject st pid t1).db pid gid = true := by
      rw [joinExists_linkTouch]; exact je
    rw [addPGP_snd_of_exists _ pid gid t2 hje2, joinCount_linkTouch,
      joinCount_linkTouch]
    exact h1

/-- Witness for claim C5's theorem: linking the stored sample pair twice
leaves exactly one join row. -/
theorem claim_C5_amended_witness :
    joinCount (addPageGroupToProject
      (addPageGroupToProject linkReadyState "p1" "g1" "T1").2
      "p1" "g1" "T2").2.db "p1" "g1" = 1 :=
  claim_C5_amended linkReadyState "p1" "g1" "T1" "T2"
    (by decide) (by decide) (by decide)

-- ## Claim C6

/-- Claim C6: whenever createProject succeeds, the returned Project carries
the input's translationLanguages unchanged and an empty pageGroups list. -/
theorem claim_C6_createProject_fields (st : ServiceState)
    (data : CreateProjectData) (nowMs : Nat) (nowIso rand : String)
    (p : Project) (st' : ServiceState)
    (h : createProject st data nowMs nowIso rand = some (p, st')) :
    p.translationLanguages = data.translationLanguages ∧ p.pageGroups = [] := by
  simp only [createProject] at h
  split at h
  · exact absurd h (by simp)
  · rw [Option.some.injEq, Prod.mk.injEq] at h
    obtain ⟨hp, -⟩ := h
    rw [← hp]
    exact ⟨rfl, rfl⟩

/-- Valid CreateProjectData used by the C6 witness. -/
def c6Data : CreateProjectData :=
  { title := "Test", description := some "", fileName := some "test",
    rootLanguage := "eng", translationLanguages := ["ara"] }

/-- Witness for claim C6's theorem at concrete input. -/
theorem claim_C6_createProject_fields_witness :
    ∃ p st', createProject serviceState0 c6Data 1700000000000 "T0" "r9x"
        = some (p, st') ∧
      p.translationLanguages = c6Data.translationLanguages ∧
      p.pageGroups = [] := by
  obtain ⟨p, st', h⟩ : ∃ p st',
      createProject serviceState0 c6Data 1700000000000 "T0" "r9x"
        = some (p, st') := by
    cases hh : createProject serviceState0 c6Data 1700000000000 "T0" "r9x" with
    | none => exact absurd hh (by decide)
    | some pr =>
      obtain ⟨a, b⟩ := pr
      exact ⟨a, b, rfl⟩
  exact ⟨p, st', h,
    claim_C6_createProject_fields serviceState0 c6Data 1700000000000 "T0" "r9x"
      p st' h⟩

-- ## Claim C7

/-- Claim C7: updateProject with the empty patch rewrites the stored row
changing only updatedAt; in general each field absent from the patch keeps
its stored value (COALESCE semantics) and present fields overwrite it. -/
theorem claim_C7_updateProject_frame (st : ServiceState) (id nowIso : String)
    (d : UpdateProjectData) (r : ProjectRow)
    (h : findProjectRow st.db id = some r) :
    findProjectRow (updateProject st id emptyProjectPatch nowIso).2.db id
        = some { r with updatedAt := nowIso } ∧
    findProjectRow (updateProject st id d nowIso).2.db id
        = some { r with
                 title := d.title.getD r.title,
                 description := d.description.getD r.description,
                 status := d.status.getD r.status,
                 updatedAt := nowIso } := by
  constructor
  · rw [updateProject_row, h]
    rfl
  · rw [updateProject_row, h]
    rfl

/-- Witness for claim C7's theorem: an empty patch on the stored sample
project only refreshes updatedAt. -/
theorem claim_C7_updateProject_frame_witness :
    findProjectRow (updateProject linkReadyState "p1" emptyProjectPatch
        "T9").2.db "p1"
      = some { sampleProjectRow with updatedAt := "T9" } :=
  (claim_C7_updateProject_frame linkReadyState "p1" "T9" emptyProjectPatch
    sampleProjectRow (by decide)).1

-- ## Claim C1

/-- Legacy page input used to exhibit the createPage round-trip failure. -/
def c1Data : CreatePageData :=
  { fileName := "doc1", title := some "Doc 1", originalText := "Hello",
    editedText := "Hello", language := "eng", status := some "approved",
    imageFile := none }

/-- Claim C1 (code bug): createPage succeeds and returns a Page whose
editedText and language match the input, but loadPageFromBlob on that Page's
id returns null — the generated id `pagegroup_1700000000000_x9k2q` contains
underscores, so the dispatch parses it as a synthetic translation-page id
`pagegroup` + language `1700000000000` and finds nothing. The spec's
round-trip property fails for every id createPage can generate. -/
theorem claim_C1_roundtrip_fails :
    (createPage serviceState0 c1Data 1700000000000 "T0" "x9k2q" none).map
      (fun r => (r.1.editedText, r.1.language,
        (loadPageFromBlob r.2 r.1.id).1))
      = some ("Hello", "eng", none) := by
  decide

-- ## Claim C2

/-- Page-group creation input used by the C2 counterexample. -/
def c2Data : CreatePageGroupData :=
  { title := "Doc", fileName := "doc", rootLanguage := "eng",
    rootText := "Hello", translations := [], status := some "draft",
    imageFile := none }

/-- Claim C2 counterexample: the PageGroup id assigned by createPageGroup
does contain underscores, and loadPageFromBlob on that very id takes the
synthetic translation-page branch and returns null even though the PageGroup
is stored. -/
theorem claim_C2_counterexample :
    (createPageGroup serviceState0 c2Data 1700000000000 "T0" "abc12wxyz"
        none).map
      (fun r => (jsIncludesChar r.1.id '_',
        (loadPageFromBlob r.2 r.1.id).1.isNone))
      = some (true, true) := by
  decide

/-- Every id built by the page-group id generator contains an underscore. -/
theorem pagegroupId_has_underscore (nowMs : Nat) (rand : String) :
    jsIncludesChar ("pagegroup_" ++ toString nowMs ++ "_" ++ rand) '_' = true := by
  have hmem : '_' ∈ ("pagegroup_" ++ toString nowMs ++ "_" ++ rand).data := by
    rw [String.data_append, String.data_append, String.data_append]
    refine List.mem_append.mpr (Or.inl ?_)
    refine List.mem_append.mpr (Or.inl ?_)
    refine List.mem_append.mpr (Or.inl ?_)
    decide
  exact List.elem_iff.mpr hmem

/-- Claim C2 (amended): every PageGroup created by createPageGroup (and hence
by createPage) is assigned an id of the form
`pagegroup_{timestamp}_{random}`, which always contains underscores — so a
stored PageGroup id is itself parsed as a synthetic
`{pageGroupId}_{languageCode}` translation-page id by the dispatch in
loadPageFromBlob, updatePage, and deletePage. -/
theorem claim_C2_amended_id_contains_underscore (st : ServiceState)
    (data : CreatePageGroupData) (nowMs : Nat) (nowIso rand : String)
    (upload : Option (String × String)) (pg : PageGroup) (st' : ServiceState)
    (h : createPageGroup st data nowMs nowIso rand upload = some (pg, st')) :
    jsIncludesChar pg.id '_' = true := by
  simp only [createPageGroup] at h
  split at h
  · exact absurd h (by simp)
  · rw [Option.some.injEq, Prod.mk.injEq] at h
    obtain ⟨hp, -⟩ := h
    rw [← hp]
    exact pagegroupId_has_underscore nowMs rand

/-- Witness for claim C2's theorem at concrete input. -/
theorem claim_C2_amended_witness :
    ∃ pg st', createPageGroup serviceState0 c2Data 1700000000000 "T0" "abc12wxyz"
        none = some (pg, st') ∧ jsIncludesChar pg.id '_' = true := by
  obtain ⟨pg, st', h⟩ : ∃ pg st',
      createPageGroup serviceState0 c2Data 1700000000000 "T0" "abc12wxyz" none
        = some (pg, st') := by
    cases hh : createPageGroup serviceState0 c2Data 1700000000000 "T0"
        "abc12wxyz" none with
    | none => exact absurd hh (by decide)
    | some pr =>
      obtain ⟨a, b⟩ := pr
      exact ⟨a, b, rfl⟩
  exact ⟨pg, st', h,
    claim_C2_amended_id_contains_underscore serviceState0 c2Data 1700000000000
      "T0" "abc12wxyz" none pg st' h⟩

-- ## Claim C8

/-- Claim C8: with the page-group cache coherent at the id, if no PageGroup
with the id is stored, addTranslationToPageGroup returns null; if one is
stored, the result has `translations[language] = text` (inserted or
overwritten) while every other language's entry is unchanged. -/
theorem claim_C8_addTranslation (st : ServiceState) (id lang text now : String)
    (hco : pgCoherentAt st id) :
    (findPageGroupRow st.db id = none →
      (addTranslationToPageGroup st id lang text now).1 = none) ∧
    (∀ pg, findPageGroupRow st.db id = some pg →
      ∃ pg', (addTranslationToPageGroup st id lang text now).1 = some pg' ∧
        jsMapGet pg'.translations lang = some text ∧
        (∀ l, l ≠ lang →
          jsMapGet pg'.translations l = jsMapGet pg.translations l)) := by
  constructor
  · intro h
    have h1 : (loadPageGroupFromBlob st id).1 = none := by
      rw [loadPageGroupFromBlob_fst st id hco, h]
    simp only [addTranslationToPageGroup, h1]
  · intro pg h
    have h1 : (loadPageGroupFromBlob st id).1 = some pg := by
      rw [loadPageGroupFromBlob_fst st id hco, h]
    have h2 : findPageGroupRow (loadPageGroupFromBlob st id).2.db id = some pg := by
      rw [loadPageGroupFromBlob_db]
      exact h
    refine ⟨applyPageGroupPatch
        (translationsPatch (jsMapSet pg.translations lang text)) now pg,
      ?_, ?_, ?_⟩
    · simp only [addTranslationToPageGroup, h1]
      rw [updatePageGroup_fst, h2]
      rfl
    · simp [applyPageGroupPatch, translationsPatch, jsMapGet_set_self]
    · intro l hl
      simp [applyPageGroupPatch, translationsPatch,
        jsMapGet_set_other pg.translations lang l text hl]

/-- Witness for claim C8's theorem: adding a French translation to the stored
sample page group keeps its Spanish entry intact. -/
theorem claim_C8_addTranslation_witness :
    ∃ pg', (addTranslationToPageGroup linkReadyState "g1" "fra" "Bonjour"
        "T3").1 = some pg' ∧
      jsMapGet pg'.translations "fra" = some "Bonjour" ∧
      (∀ l, l ≠ "fra" →
        jsMapGet pg'.translations l
          = jsMapGet samplePageGroupRow.translations l) :=
  (claim_C8_addTranslation linkReadyState "g1" "fra" "Bonjour" "T3"
    (fun pg h => by simp [jsMapGet] at h)).2 samplePageGroupRow (by decide)

-- ## Claim C9

/-- Claim C9: for a valid /translate request with sourceLanguage "ara" and
textType "religious", the handler builds the classical-Arabic prompt (the
classical template applied to the request's config and text) and responds
with usedClassicalPrompt = true, for every model identifier. -/
theorem claim_C9_translate_classical
    (cB mB : TranslationPromptConfig → String → String)
    (llm : String → String) (req : TranslateRequest)
    (hsrc : req.sourceLanguage = "ara") (hty : req.textType = some "religious")
    (ht : req.text ≠ "") (htl : req.targetLanguage ≠ "") (hm : req.model ≠ "") :
    translateSelectedPrompt cB mB req
        = cB { sourceLanguage := req.sourceLanguage,
               targetLanguage := req.targetLanguage, model := req.model,
               textType := req.textType } req.text ∧
    translateHandler cB mB llm req
        = Except.ok
            { translatedText := llm (translateSelectedPrompt cB mB req),
              usedClassicalPrompt := true, textType := req.textType,
              model := req.model } := by
  have hcond : classicalPromptCondition req.sourceLanguage req.model
      req.textType = true := by
    simp [classicalPromptCondition, hsrc, hty]
  have h1 : (req.text == "") = false := beq_eq_false_iff_ne.mpr ht
  have h2 : (req.targetLanguage == "") = false := beq_eq_false_iff_ne.mpr htl
  have h3 : (req.model == "") = false := beq_eq_false_iff_ne.mpr hm
  constructor
  · simp [translateSelectedPrompt, hcond]
  · simp [translateHandler, h1, h2, h3, hcond]

/-- Stand-in classical template for the C9 witness. -/
def c9ClassicalTemplate : TranslationPromptConfig → String → String :=
  fun _ t => String.append "CLS " t

/-- Stand-in modern template for the C9 witness. -/
def c9ModernTemplate : TranslationPromptConfig → String → String :=
  fun _ t => String.append "MOD " t

/-- Concrete /translate request for the C9 witness. -/
def c9Req : TranslateRequest :=
  { text := "x", sourceLanguage := "ara", targetLanguage := "en",
    model := "gpt-4o", textType := some "religious" }

/-- Witness for claim C9's theorem: the classical template is applied (the
model identifier "gpt-4o" does not even contain "classical") and the response
reports usedClassicalPrompt = true. -/
theorem claim_C9_translate_classical_witness :
    translateHandler c9ClassicalTemplate c9ModernTemplate (fun p => p) c9Req
      = Except.ok { translatedText := "CLS x", usedClassicalPrompt := true,
                    textType := some "religious", model := "gpt-4o" } := by
  have h := (claim_C9_translate_classical c9ClassicalTemplate c9ModernTemplate
    (fun p => p) c9Req rfl rfl (by decide) (by decide) (by decide)).2
  rw [h]
  rfl

-- ## Claim C10

theorem patternsScore_zero (mc : String → String → ℕ) (text : String) (w : ℚ)
    (ps : List String) (h : ∀ p ∈ ps, mc p text = 0) :
    patternsScore mc text w ps = 0 := by
  induction ps with
  | nil => rfl
  | cons p ps ih =>
    have hp := h p (List.mem_cons_self p ps)
    have hrest := ih (fun q hq => h q (List.mem_cons_of_mem p hq))
    simp [patternsScore, hp, hrest]

theorem keywordsScore_zero (text : String) (w : ℚ) (ks : List String)
    (h : ∀ kw ∈ ks, jsIncludes text kw = false) :
    keywordsScore text w ks = 0 := by
  induction ks with
  | nil => rfl
  | cons kw ks ih =>
    have hk := h kw (List.mem_cons_self kw ks)
    have hrest := ih (fun q hq => h q (List.mem_cons_of_mem kw hq))
    simp [keywordsScore, hk, hrest]

theorem categoryScore_zero (mc : String → String → ℕ) (text : String)
    (ci : CategoryIndicators)
    (hp : ∀ p ∈ ci.patterns, mc p text = 0)
    (hk : ∀ kw ∈ ci.keywords, jsIncludes text kw = false) :
    categoryScore mc text ci = 0 := by
  unfold categoryScore
  rw [patternsScore_zero mc text ci.weight ci.patterns hp,
    keywordsScore_zero text ci.weight ci.keywords hk]
  norm_num

/-- The find-first-at-maximum behaviour of the detection step: each category
is returned exactly when it attains the maximum and no earlier category (in
the order classical, religious, literary, technical, modern) does. -/
theorem detectedType_spec (s : AnalysisScores) :
    (detectedType s = JsArabicTextType.classical ↔
      s.classical = maxAnalysisScore s) ∧
    (s.classical ≠ maxAnalysisScore s →
      (detectedType s = JsArabicTextType.religious ↔
        s.religious = maxAnalysisScore s)) ∧
    (s.classical ≠ maxAnalysisScore s → s.religious ≠ maxAnalysisScore s →
      (detectedType s = JsArabicTextType.literary ↔
        s.literary = maxAnalysisScore s)) ∧
    (s.classical ≠ maxAnalysisScore s → s.religious ≠ maxAnalysisScore s →
      s.literary ≠ maxAnalysisScore s →
      (detectedType s = JsArabicTextType.technical ↔
        s.technical = maxAnalysisScore s)) ∧
    (s.classical ≠ maxAnalysisScore s → s.religious ≠ maxAnalysisScore s →
      s.literary ≠ maxAnalysisScore s → s.technical ≠ maxAnalysisScore s →
      detectedType s = JsArabicTextType.modern) := by
  by_cases h1 : s.classical = maxAnalysisScore s
  · simp [detectedType, h1]
  · by_cases h2 : s.religious = maxAnalysisScore s
    · simp [detectedType, h1, h2]
    · by_cases h3 : s.literary = maxAnalysisScore s
      · simp [detectedType, h1, h2, h3]
      · by_cases h4 : s.technical = maxAnalysisScore s
        · simp [detectedType, h1, h2, h3, h4]
        · simp [detectedType, h1, h2, h3, h4]

/-- Claim C10: when no pattern and no keyword of any category matches the
text (in particular for the empty string), analyzeArabicText returns
textType classical with confidence 0.5; and in every tie at the maximum
score, the earliest category in the order classical, religious, literary,
technical, modern is returned. -/
theorem claim_C10_analyzeArabicText (mc : String → String → ℕ) (text : String) :
    ((∀ p ∈ allAnalysisPatterns, mc p text = 0) →
      (∀ kw ∈ allAnalysisKeywords, jsIncludes text kw = false) →
      analyzeArabicText mc text
        = { textType := JsArabicTextType.classical, confidence := 1/2 }) ∧
    (((analyzeArabicText mc text).textType = JsArabicTextType.classical ↔
        (computeScores mc text).classical
          = maxAnalysisScore (computeScores mc text)) ∧
      ((computeScores mc text).classical
          ≠ maxAnalysisScore (computeScores mc text) →
        ((analyzeArabicText mc text).textType = JsArabicTextType.religious ↔
          (computeScores mc text).religious
            = maxAnalysisScore (computeScores mc text))) ∧
      ((computeScores mc text).classical
          ≠ maxAnalysisScore (computeScores mc text) →
        (computeScores mc text).religious
          ≠ maxAnalysisScore (computeScores mc text) →
        ((analyzeArabicText mc text).textType = JsArabicTextType.literary ↔
          (computeScores mc text).literary
            = maxAnalysisScore (computeScores mc text))) ∧
      ((computeScores mc text).classical
          ≠ maxAnalysisScore (computeScores mc text) →
        (computeScores mc text).religious
          ≠ maxAnalysisScore (computeScores mc text) →
        (computeScores mc text).literary
          ≠ maxAnalysisScore (computeScores mc text) →
        ((analyzeArabicText mc text).textType = JsArabicTextType.technical ↔
          (computeScores mc text).technical
            = maxAnalysisScore (computeScores mc text))) ∧
      ((computeScores mc text).classical
          ≠ maxAnalysisScore (computeScores mc text) →
        (computeScores mc text).religious
          ≠ maxAnalysisScore (computeScores mc text) →
        (computeScores mc text).literary
          ≠ maxAnalysisScore (computeScores mc text) →
        (computeScores mc text).technical
          ≠ maxAnalysisScore (computeScores mc text) →
        (analyzeArabicText mc text).textType = JsArabicTextType.modern)) := by
  constructor
  · intro hpat hkw
    have hmemPc : ∀ p ∈ classicalIndicators.patterns, p ∈ allAnalysisPatterns := by
      intro p hp
      simp only [allAnalysisPatterns, List.mem_append]
      exact Or.inl (Or.inl (Or.inl (Or.inl hp)))
    have hmemPr : ∀ p ∈ religiousIndicators.patterns, p ∈ allAnalysisPatterns := by
      intro p hp
      simp only [allAnalysisPatterns, List.mem_append]
      exact Or.inl (Or.inl (Or.inl (Or.inr hp)))
    have hmemPl : ∀ p ∈ literaryIndicators.patterns, p ∈ allAnalysisPatterns := by
      intro p hp
      simp only [allAnalysisPatterns, List.mem_append]
      exact Or.inl (Or.inl (Or.inr hp))
    have hmemPt : ∀ p ∈ technicalIndicators.patterns, p ∈ allAnalysisPatterns := by
      intro p hp
      simp only [allAnalysisPatterns, List.mem_append]
      exact Or.inl (Or.inr hp)
    have hmemPm : ∀ p ∈ modernIndicators.patterns, p ∈ allAnalysisPatterns := by
      intro p hp
      simp only [allAnalysisPatterns, List.mem_append]
      exact Or.inr hp
    have hmemKc : ∀ k ∈ classicalIndicators.keywords, k ∈ allAnalysisKeywords := by
      intro k hk
      simp only [allAnalysisKeywords, List.mem_append]
      exact Or.inl (Or.inl (Or.inl (Or.inl hk)))
    have hmemKr : ∀ k ∈ religiousIndicators.keywords, k ∈ allAnalysisKeywords := by
      intro k hk
      simp only [allAnalysisKeywords, List.mem_append]
      exact Or.inl (Or.inl (Or.inl (Or.inr hk)))
    have hmemKl : ∀ k ∈ literaryIndicators.keywords, k ∈ allAnalysisKeywords := by
      intro k hk
      simp only [allAnalysisKeywords, List.mem_append]
      exact Or.inl (Or.inl (Or.inr hk))
    have hmemKt : ∀ k ∈ technicalIndicators.keywords, k ∈ allAnalysisKeywords := by
      intro k hk
      simp only [allAnalysisKeywords, List.mem_append]
      exact Or.inl (Or.inr hk)
    have hmemKm : ∀ k ∈ modernIndicators.keywords, k ∈ allAnalysisKeywords := by
      intro k hk
      simp only [allAnalysisKeywords, List.mem_append]
      exact Or.inr hk
    have hc := categoryScore_zero mc text classicalIndicators
      (fun p hp => hpat p (hmemPc p hp)) (fun k hk => hkw k (hmemKc k hk))
    have hr := categoryScore_zero mc text religiousIndicators
      (fun p hp => hpat p (hmemPr p hp)) (fun k hk => hkw k (hmemKr k hk))
    have hl := categoryScore_zero mc text literaryIndicators
      (fun p hp => hpat p (hmemPl p hp)) (fun k hk => hkw k (hmemKl k hk))
    have ht := categoryScore_zero mc text technicalIndicators
      (fun p hp => hpat p (hmemPt p hp)) (fun k hk => hkw k (hmemKt k hk))
    have hm := categoryScore_zero mc text modernIndicators
      (fun p hp => hpat p (hmemPm p hp)) (fun k hk => hkw k (hmemKm k hk))
    have hs : computeScores mc text = ⟨0, 0, 0, 0, 0⟩ := by
      simp only [computeScores]
      rw [hc, hr, hl, ht, hm]
    simp only [analyzeArabicText]
    rw [hs]
    norm_num [detectedType, maxAnalysisScore, secondAnalysisScore,
      TextAnalysisResult.mk.injEq]
  · exact detectedType_spec (computeScores mc text)

/-- Witness for claim C10's theorem: on the empty string (no pattern or
keyword can match) the analysis returns classical with confidence 0.5. -/
theorem claim_C10_analyzeArabicText_witness :
    analyzeArabicText (fun _ _ => 0) ""
      = { textType := JsArabicTextType.classical, confidence := 1/2 } :=
  (claim_C10_analyzeArabicText (fun _ _ => 0) "").1
    (fun _ _ => rfl) (by decide)
